import Mathlib

/-!
Shallow embedding of the QR finder-pattern corner detector in `Lab4/qr.py`,
together with theorems settling the specification claims about it.

Conventions of the embedding:
* Pixel grids are modelled either as `List (List ℚ)` (raw numeric grids, for
  the binarization step) or as an `Img` structure carrying `rows`, `cols` and
  a total pixel function `ℤ → ℤ → Bool` (binarized grids; `true` = white,
  `false` = black, as in the source comment "Black = False, White = True").
* Python float arithmetic on the integer run-length counters is modelled
  exactly over `ℚ`.
* Python `while` loops are modelled by structurally recursive functions with
  an explicit fuel argument chosen large enough that fuel can never run out
  on the directions / index ranges the source actually uses; this keeps every
  definition executable by `decide` / `rfl`.
* Coordinates are `(row, column)` pairs of integers, as in the source.
-/

/-- A point in image space, `(row, column)`, as the tuples used in `qr.py`. -/
abbrev Pt := ℤ × ℤ

/-- `checkRatio(c1,c2,c3,c4,c5, thresh)` from `qr.py` lines 58-76.
The five run-length counters are non-negative integers in the source
(they count pixels), so they are taken as `ℕ`; the float arithmetic
`(c1+c2+c3+c4+c5)/7.0` is modelled exactly in `ℚ`.  The source's default
threshold is `2.0`; callers in the source always use the default, and the
threshold is passed explicitly here. -/
def checkRatio (c1 c2 c3 c4 c5 : ℕ) (thresh : ℚ) : Bool :=
  let total : ℚ := ((c1 : ℚ) + c2 + c3 + c4 + c5) / 7
  -- "Left edge check": if total < 1.0: return False
  if total < 1 then false
  else
    decide (|(c1 : ℚ) - total| < thresh ∧ |(c2 : ℚ) - total| < thresh ∧
      |(c3 : ℚ) - 3 * total| < thresh ∧ |(c4 : ℚ) - total| < thresh ∧
      |(c5 : ℚ) - total| < thresh)

/-- C1: `checkRatio` at the default threshold `2.0` computes
`mean = (c1+c2+c3+c4+c5)/7.0`, returns `false` whenever `mean < 1.0`, and
otherwise returns `true` iff `|c1-mean|`, `|c2-mean|`, `|c4-mean|`,
`|c5-mean|` and `|c3-3*mean|` are all strictly below the threshold;
in particular `checkRatio(k,k,3k,k,k)` is `true` for every `k ≥ 1`. -/
theorem checkRatio_spec :
    (∀ c1 c2 c3 c4 c5 : ℕ,
      (checkRatio c1 c2 c3 c4 c5 2 = true ↔
        (¬ ((c1 : ℚ) + c2 + c3 + c4 + c5) / 7 < 1 ∧
          |(c1 : ℚ) - ((c1 : ℚ) + c2 + c3 + c4 + c5) / 7| < 2 ∧
          |(c2 : ℚ) - ((c1 : ℚ) + c2 + c3 + c4 + c5) / 7| < 2 ∧
          |(c4 : ℚ) - ((c1 : ℚ) + c2 + c3 + c4 + c5) / 7| < 2 ∧
          |(c5 : ℚ) - ((c1 : ℚ) + c2 + c3 + c4 + c5) / 7| < 2 ∧
          |(c3 : ℚ) - 3 * (((c1 : ℚ) + c2 + c3 + c4 + c5) / 7)| < 2))) ∧
    (∀ k : ℕ, 1 ≤ k → checkRatio k k (3 * k) k k 2 = true) := by
  constructor
  · intro c1 c2 c3 c4 c5
    unfold checkRatio
    by_cases h : ((c1 : ℚ) + c2 + c3 + c4 + c5) / 7 < 1
    · simp [h]
    · rw [if_neg h]
      simp only [decide_eq_true_iff]
      tauto
  · intro k hk
    unfold checkRatio
    have htot : (((k : ℚ)) + k + (3 * k : ℕ) + k + k) / 7 = (k : ℚ) := by
      push_cast
      ring
    rw [htot]
    have hk1 : (1 : ℚ) ≤ (k : ℚ) := by exact_mod_cast hk
    rw [if_neg (by linarith)]
    have h3 : ((3 * k : ℕ) : ℚ) = 3 * (k : ℚ) := by push_cast; ring
    simp only [h3, decide_eq_true_iff, sub_self, abs_zero]
    norm_num

/-- Witness for `checkRatio_spec`: a concrete instance of the `k ≥ 1` clause. -/
theorem checkRatio_spec_witness : 1 ≤ 2 ∧ checkRatio 2 2 (3 * 2) 2 2 2 = true :=
  ⟨by norm_num, checkRatio_spec.2 2 (by norm_num)⟩

/-- A binarized image: `rows × cols` extent together with a total pixel
lookup.  Lookups in the source are only ever performed at indices inside
`[0, rows) × [0, cols)`; totalizing the lookup function over `ℤ` does not
change any behaviour the claims talk about. `true` = white, `false` = black. -/
structure Img where
  rows : ℕ
  cols : ℕ
  pix : ℤ → ℤ → Bool

/-- `getAlignmentPoint(image, centers)` from `qr.py` lines 212-224.
The source reads `centers[0]`, `centers[1]`, `centers[2]` positionally (an
`IndexError` when the list is shorter); in this total embedding the three
positional reads are `List.get?` and the error case is `none`.  The `image`
parameter is unused in the source and kept for fidelity.  The source builds
`v1 = top_right - top_left`, `v2 = bottom_left - top_left` and returns
`(y, x) = (tl[0]+v1[0]+v2[0], tl[1]+v1[1]+v2[1])`, a `(row, col)` pair. -/
def getAlignmentPoint (image : Img) (centers : List Pt) : Option Pt :=
  match centers.get? 0, centers.get? 1, centers.get? 2 with
  | some top_left, some top_right, some bottom_left =>
      let v1 : Pt := (top_right.1 - top_left.1, top_right.2 - top_left.2)
      let v2 : Pt := (bottom_left.1 - top_left.1, bottom_left.2 - top_left.2)
      let x := top_left.2 + v1.2 + v2.2
      let y := top_left.1 + v1.1 + v2.1
      some (y, x)
  | _, _, _ => none

/-- An arbitrary concrete image, used to instantiate `Img` arguments in
closed witness statements (the functions involved ignore the image). -/
def blankImg : Img := ⟨2, 2, fun _ _ => false⟩

/-- C4: `getAlignmentPoint` returns the parallelogram completion
`top_left + (top_right - top_left) + (bottom_left - top_left)`
componentwise in `(row, col)` form; for `(0,0)`, `(0,10)`, `(10,0)` it
returns `(10,10)`. -/
theorem getAlignmentPoint_parallelogram :
    (∀ (image : Img) (tl tr bl : Pt),
      getAlignmentPoint image [tl, tr, bl] =
        some (tl.1 + (tr.1 - tl.1) + (bl.1 - tl.1), tl.2 + (tr.2 - tl.2) + (bl.2 - tl.2))) ∧
    (∀ image : Img, getAlignmentPoint image [(0, 0), (0, 10), (10, 0)] = some (10, 10)) := by
  constructor
  · intro image tl tr bl
    rfl
  · intro image
    rfl

/-- C9: `getAlignmentPoint` reads exactly the first three positions: with
fewer than 3 centers the positional access is out of range (`none` here, an
`IndexError` in the source), and elements past index 2 never affect the
result. -/
theorem getAlignmentPoint_reads_first_three :
    (∀ (image : Img) (centers : List Pt), centers.length < 3 →
      getAlignmentPoint image centers = none) ∧
    (∀ (image : Img) (a b c : Pt) (rest rest' : List Pt),
      getAlignmentPoint image (a :: b :: c :: rest) =
        getAlignmentPoint image (a :: b :: c :: rest')) := by
  constructor
  · intro image centers h
    match centers, h with
    | [], _ => rfl
    | [_], _ => rfl
    | [_, _], _ => rfl
    | _ :: _ :: _ :: _, h => simp at h; omega
  · intro image a b c rest rest'
    rfl

/-- Witness for `getAlignmentPoint_reads_first_three`: a one-element list. -/
theorem getAlignmentPoint_reads_first_three_witness :
    getAlignmentPoint blankImg [((0 : ℤ), (0 : ℤ))] = none :=
  getAlignmentPoint_reads_first_three.1 blankImg [(0, 0)] (by decide)

/-- Outcomes of `decode(arr)` from `qr.py` lines 227-259, as far as its
guard clauses go.  `rejectedTooLarge` and `rejectedNotBool` model the two
early-return branches: each prints a diagnostic message and returns the
sentinel `None` (no exception, no file write, no network call).
`submitted` models reaching the out-of-scope tail that writes `tmp.png`
and POSTs it to the external decode service. -/
inductive DecodeOutcome where
  | rejectedTooLarge : DecodeOutcome
  | rejectedNotBool : DecodeOutcome
  | submitted : DecodeOutcome
deriving DecidableEq

/-- `true` iff the outcome is an early sentinel-`None` return (no network
call, no file write). -/
def DecodeOutcome.returnsNone : DecodeOutcome → Bool
  | .submitted => false
  | _ => true

/-- The guard structure of `decode(arr)`: `rows, cols = arr.shape`, reject
if `rows > 41 or cols > 41`, then reject if `arr.dtype != 'bool'`,
otherwise proceed to the submission tail.  `dtypeIsBool` abstracts the
numpy dtype test. -/
def decode (rows cols : ℕ) (dtypeIsBool : Bool) : DecodeOutcome :=
  if rows > 41 ∨ cols > 41 then .rejectedTooLarge
  else if dtypeIsBool = false then .rejectedNotBool
  else .submitted

/-- C8: whenever the grid exceeds 41 rows or 41 columns, or its dtype is
not boolean, `decode` takes a sentinel-`None` early return (diagnostic
print, no exception) and never reaches the network/file-write tail. -/
theorem decode_guard_rejects :
    ∀ (rows cols : ℕ) (dtypeIsBool : Bool),
      rows > 41 ∨ cols > 41 ∨ dtypeIsBool = false →
      (decode rows cols dtypeIsBool).returnsNone = true ∧
        decode rows cols dtypeIsBool ≠ DecodeOutcome.submitted := by
  intro rows cols b h
  unfold decode
  by_cases hsz : rows > 41 ∨ cols > 41
  · rw [if_pos hsz]
    exact ⟨rfl, by simp [DecodeOutcome.returnsNone]⟩
  · rw [if_neg hsz]
    have hb : b = false := by tauto
    rw [if_pos hb]
    exact ⟨rfl, by simp [DecodeOutcome.returnsNone]⟩

/-- Witness for `decode_guard_rejects`: a 42-row boolean grid. -/
theorem decode_guard_rejects_witness :
    (decode 42 10 true).returnsNone = true ∧
      decode 42 10 true ≠ DecodeOutcome.submitted :=
  decode_guard_rejects 42 10 true (Or.inl (by norm_num))

/-- Maximum entry of a 2-D numeric grid, modelling `np.amax(img)`.
`0` is used as the fold base; this matches `np.amax` on every non-empty
grid with a non-negative maximum, and the only use is the comparison
`maxEntry g > 1`, whose outcome agrees with the source for every grid on
which `np.amax` is defined (an all-negative maximum and the base `0` are
both `≤ 1`, selecting the same branch). -/
def maxEntry (g : List (List ℚ)) : ℚ :=
  (g.map (fun row => row.foldr max 0)).foldr max 0

/-- The binarization step at the top of `getCornerPoints` (`qr.py` lines
25-35), for 2-D input: if `np.amax(img) > 1` divide by `255.0`, then
threshold with `img > 0.5`.  (The source's channel selection `img[:,:,0]`
applies only to 3-D input and is the identity on the 2-D grids this
embedding models.) -/
def binarize (g : List (List ℚ)) : List (List Bool) :=
  let g1 := if maxEntry g > 1 then g.map (List.map (fun v => v / 255)) else g
  g1.map (List.map (fun v => decide (v > 1/2)))

/-- The canonical numeric form of an already-binarized grid: `true ↦ 1`,
`false ↦ 0` (numpy booleans behave as `1`/`0` in the arithmetic and
comparisons the binarizer performs). -/
def ofBoolGrid (g : List (List Bool)) : List (List ℚ) :=
  g.map (List.map (fun b => if b then (1 : ℚ) else 0))

/-- Every entry of `ofBoolGrid g` is at most 1, so the `np.amax > 1`
branch never divides an already-boolean grid by 255. -/
theorem maxEntry_ofBoolGrid_le_one (g : List (List Bool)) : maxEntry (ofBoolGrid g) ≤ 1 := by
  unfold maxEntry ofBoolGrid
  induction g with
  | nil => norm_num
  | cons row rest ih =>
    simp only [List.map_cons, List.foldr_cons]
    refine max_le ?_ ih
    induction row with
    | nil => norm_num
    | cons b bs ihb =>
      simp only [List.map_cons, List.foldr_cons]
      refine max_le ?_ ihb
      by_cases hb : b <;> simp [hb]

/-- Thresholding at `0.5` undoes the `true ↦ 1`, `false ↦ 0` embedding on
a single row. -/
theorem threshold_bool_row (row : List Bool) :
    List.map (fun v : ℚ => decide (v > 1/2))
      (List.map (fun b => if b then (1 : ℚ) else 0) row) = row := by
  induction row with
  | nil => rfl
  | cons b bs ih =>
    cases b <;> simp only [List.map_cons, ih] <;> norm_num

/-- C7: the Binarizer is idempotent — applied to a grid that is already
strictly boolean (every entry `0` or `1`, the image of a `Bool` grid), it
returns that same boolean grid: the maximum is `≤ 1` so no division by 255
occurs, and thresholding at `0.5` maps `1 ↦ true`, `0 ↦ false`. -/
theorem binarize_idempotent :
    ∀ g : List (List Bool), binarize (ofBoolGrid g) = g := by
  intro g
  unfold binarize
  rw [if_neg (not_lt.mpr (maxEntry_ofBoolGrid_le_one g))]
  unfold ofBoolGrid
  induction g with
  | nil => rfl
  | cons row rest ih =>
    simp only [List.map_cons]
    rw [threshold_bool_row, ih]

/-- The removal test on `qr.py` line 200:
`(c1[0] - c2[0])**2 + (c1[1] - c2[1])**2 < thresh`.
Note that BOTH coordinate differences are squared in the source.  The
coordinates are integers and `thresh` is a Python float (`rows/5` at the
call site), modelled as `ℚ`. -/
def closeB (thresh : ℚ) (c1 c2 : Pt) : Bool :=
  decide ((((c1.1 - c2.1) ^ 2 + (c1.2 - c2.2) ^ 2 : ℤ) : ℚ) < thresh)

/-- The `while i < len(centers)` loop of `neighborSuppression` (`qr.py`
lines 192-208) with an explicit fuel argument.  One fuel unit is one loop
iteration.  The source's `removal_list` + reverse-order `del` of every
index `j > i` whose point is `closeB` to `centers[i]` is exactly: keep the
first `i+1` entries and filter the rest.  Fuel equal to the initial list
length never runs out: `i` grows by 1 each iteration while the length
never grows, so the loop performs at most `len(centers)` iterations. -/
def suppressLoop (thresh : ℚ) : ℕ → ℕ → List Pt → List Pt
  | 0, _, centers => centers
  | fuel + 1, i, centers =>
    if h : i < centers.length then
      let c1 := centers.get ⟨i, h⟩
      suppressLoop thresh fuel (i + 1)
        (centers.take (i + 1) ++ (centers.drop (i + 1)).filter (fun p => !closeB thresh c1 p))
    else centers

/-- `neighborSuppression(centers, thresh)` from `qr.py` lines 190-210. -/
def neighborSuppression (thresh : ℚ) (centers : List Pt) : List Pt :=
  suppressLoop thresh centers.length 0 centers

/-- Greedy forward-scanning suppression: each surviving point removes every
later point `closeB` to it.  This is the clean recursive description of
what the imperative loop computes (proved equivalent below). -/
def suppressRec (thresh : ℚ) : List Pt → List Pt
  | [] => []
  | c :: rest => c :: suppressRec thresh (rest.filter (fun p => !closeB thresh c p))
termination_by l => l.length
decreasing_by
  simp_wf
  exact Nat.lt_succ_of_le (List.length_filter_le _ rest)

/-- Modelled from the spec: the spec's removal test for the
SpatialDeduplicator, "squared row-difference plus raw (unsquared)
column-difference … falls under the threshold".  Kept only to compare the
spec's wording against the source's `closeB`, which squares both terms. -/
def closeClaim (thresh : ℚ) (c1 c2 : Pt) : Bool :=
  decide ((((c1.1 - c2.1) ^ 2 + (c1.2 - c2.2) : ℤ) : ℚ) < thresh)

/-- Modelled from the spec: greedy forward-scanning suppression using the
spec's `closeClaim` test instead of the source's `closeB`. -/
def suppressRecClaim (thresh : ℚ) : List Pt → List Pt
  | [] => []
  | c :: rest => c :: suppressRecClaim thresh (rest.filter (fun p => !closeClaim thresh c p))
termination_by l => l.length
decreasing_by
  simp_wf
  exact Nat.lt_succ_of_le (List.length_filter_le _ rest)

/-- Loop-invariant equivalence: with enough fuel, the imperative loop
started at index `i` equals the untouched prefix of length `i` followed by
the greedy suppression of the rest. -/
theorem suppressLoop_eq (thresh : ℚ) :
    ∀ (fuel i : ℕ) (l : List Pt), l.length ≤ fuel + i →
      suppressLoop thresh fuel i l = l.take i ++ suppressRec thresh (l.drop i) := by
  intro fuel
  induction fuel with
  | zero =>
    intro i l hlen
    simp only [Nat.zero_add] at hlen
    rw [suppressLoop, List.take_of_length_le hlen, List.drop_eq_nil_of_le hlen,
      suppressRec, List.append_nil]
  | succ fuel ih =>
    intro i l hlen
    rw [suppressLoop]
    by_cases h : i < l.length
    · rw [dif_pos h]
      have hkeep : (l.take (i + 1)).length = i + 1 := by
        rw [List.length_take]
        omega
      have hlen2 :
          (l.take (i + 1) ++ (l.drop (i + 1)).filter
            (fun p => !closeB thresh (l.get ⟨i, h⟩) p)).length ≤ fuel + (i + 1) := by
        rw [List.length_append, hkeep]
        have hf := List.length_filter_le
          (fun p => !closeB thresh (l.get ⟨i, h⟩) p) (l.drop (i + 1))
        rw [List.length_drop] at hf
        omega
      rw [ih (i + 1) _ hlen2]
      have htake : (l.take (i + 1) ++ (l.drop (i + 1)).filter
          (fun p => !closeB thresh (l.get ⟨i, h⟩) p)).take (i + 1) = l.take (i + 1) :=
        List.take_left' hkeep
      have hdrop : (l.take (i + 1) ++ (l.drop (i + 1)).filter
          (fun p => !closeB thresh (l.get ⟨i, h⟩) p)).drop (i + 1) =
          (l.drop (i + 1)).filter (fun p => !closeB thresh (l.get ⟨i, h⟩) p) :=
        List.drop_left' hkeep
      rw [htake, hdrop]
      have hdropi : l.drop i = l.get ⟨i, h⟩ :: l.drop (i + 1) := List.drop_eq_getElem_cons h
      rw [hdropi, suppressRec]
      have htakei : l.take (i + 1) = l.take i ++ [l.get ⟨i, h⟩] := by
        rw [List.take_succ]
        congr 1
        rw [List.getElem?_eq_getElem h]
        rfl
      rw [htakei, List.append_assoc]
      rfl
    · rw [dif_neg h]
      push_neg at h
      rw [List.take_of_length_le h, List.drop_eq_nil_of_le h, suppressRec, List.append_nil]

/-- C2 (amended): in `neighborSuppression`, a later point is removed
exactly when its squared row-difference plus its squared column-difference
from an earlier surviving point falls under the threshold, scanning
forward from each surviving point in list order — i.e. the imperative loop
computes the greedy forward suppression with the `closeB` (both terms
squared) test. -/
theorem neighborSuppression_eq_greedy :
    ∀ (thresh : ℚ) (centers : List Pt),
      neighborSuppression thresh centers = suppressRec thresh centers := by
  intro thresh centers
  rw [neighborSuppression, suppressLoop_eq thresh centers.length 0 centers (by omega)]
  rfl

/-- Counterexample to C2 as stated: at `thresh = 5` and points
`(0,0), (0,3)`, the spec's test (`0² + 3 = 3 < 5`) removes the later
point, but the source (`0² + 3² = 9 ≥ 5`) keeps it. -/
theorem neighborSuppression_claim_cex :
    neighborSuppression 5 [(0, 0), (0, 3)] = [(0, 0), (0, 3)] ∧
      suppressRecClaim 5 [(0, 0), (0, 3)] = [(0, 0)] := by
  constructor
  · decide
  · rw [suppressRecClaim]
    norm_num [closeClaim, List.filter]
    rw [suppressRecClaim]

/-- Greedy suppression keeps a pairwise-far list unchanged. -/
theorem suppressRec_of_pairwise_far (thresh : ℚ) :
    ∀ l : List Pt, l.Pairwise (fun p q => closeB thresh p q = false) →
      suppressRec thresh l = l := by
  intro l
  induction l with
  | nil => intro _; rw [suppressRec]
  | cons c rest ih =>
    intro hp
    rw [List.pairwise_cons] at hp
    rw [suppressRec]
    have hfilter : rest.filter (fun p => !closeB thresh c p) = rest := by
      apply List.filter_eq_self.mpr
      intro p hpmem
      rw [hp.1 p hpmem]
      rfl
    rw [hfilter, ih hp.2]

/-- C5: given a non-empty list of points pairwise within the threshold
(under the source's squared-distance test), `neighborSuppression` returns
exactly the first point; given points pairwise beyond the threshold, it
returns the whole list unchanged and in order. -/
theorem neighborSuppression_cluster :
    (∀ (thresh : ℚ) (c : Pt) (rest : List Pt),
      (c :: rest).Pairwise (fun p q => closeB thresh p q = true) →
      neighborSuppression thresh (c :: rest) = [c]) ∧
    (∀ (thresh : ℚ) (l : List Pt),
      l.Pairwise (fun p q => closeB thresh p q = false) →
      neighborSuppression thresh l = l) := by
  constructor
  · intro thresh c rest hp
    rw [neighborSuppression,
      suppressLoop_eq thresh (c :: rest).length 0 (c :: rest) (by omega)]
    simp only [List.take_zero, List.drop_zero, List.nil_append]
    rw [List.pairwise_cons] at hp
    rw [suppressRec]
    have hfilter : rest.filter (fun p => !closeB thresh c p) = [] := by
      apply List.filter_eq_nil_iff.mpr
      intro p hpmem
      rw [hp.1 p hpmem]
      simp
    rw [hfilter, suppressRec]
  · intro thresh l hp
    rw [neighborSuppression, suppressLoop_eq thresh l.length 0 l (by omega)]
    simp only [List.take_zero, List.drop_zero, List.nil_append]
    exact suppressRec_of_pairwise_far thresh l hp

/-- Witness for `neighborSuppression_cluster`: a concrete three-point
cluster collapses to its first point, and three pairwise-far points are
returned unchanged. -/
theorem neighborSuppression_cluster_witness :
    neighborSuppression 10 [(0, 0), (1, 1), (0, 1)] = [(0, 0)] ∧
      neighborSuppression 2 [(0, 0), (5, 5), (9, 0)] = [(0, 0), (5, 5), (9, 0)] :=
  ⟨neighborSuppression_cluster.1 10 (0, 0) [(1, 1), (0, 1)] (by decide),
    neighborSuppression_cluster.2 2 [(0, 0), (5, 5), (9, 0)] (by decide)⟩

/-- `verifyRatio(c1,c2,c3, thresh)` from `qr.py` lines 136-143:
`total = (c1+c2+c3)/3.5`, accept iff `|c1 - 1.5*total| < thresh` and
`|c2 - total| < thresh` and `|c3 - total| < thresh`.  The counters are
pixel counts (`ℕ`); the float arithmetic is modelled exactly in `ℚ`
(`3.5 = 7/2`, `1.5 = 3/2`).  The source's default threshold is `1.0` and
every caller uses the default. -/
def verifyRatio (c1 c2 c3 : ℕ) (thresh : ℚ) : Bool :=
  let total : ℚ := ((c1 : ℚ) + c2 + c3) / (7 / 2)
  decide (|(c1 : ℚ) - (3 / 2) * total| < thresh ∧ |(c2 : ℚ) - total| < thresh ∧
    |(c3 : ℚ) - total| < thresh)

/-- One step state of the `verifyDirection` walk (`qr.py` lines 145-180):
`prev ∈ {0,1,2}` is the three-state progression (0: first black run,
1: white run, 2: second black run), `c1 c2 c3` the three run counters.
The `while` loop is modelled with fuel; each fuel unit is one iteration.
Because every caller uses `dy = 1` or `dy = -1`, the row index changes
monotonically by one per iteration and stays inside `[0, rows)` while the
loop runs, so at most `rows` iterations occur and the fuel `rows + 1`
supplied by `verifyDirection` can never be exhausted; the fuel-out value
is set to the loop-exit edge check so the function is total anyway. -/
def verifyDirLoop (image : Img) (dx dy : ℤ) :
    ℕ → ℤ → ℤ → ℕ → ℕ → ℕ → ℕ → Bool
  | 0, _, _, _, c1, c2, c3 => verifyRatio c1 c2 c3 1
  | fuel + 1, i, j, prev, c1, c2, c3 =>
    if 0 ≤ i ∧ i < (image.rows : ℤ) ∧ 0 ≤ j ∧ j < (image.cols : ℤ) then
      if image.pix i j then
        -- white pixel
        if prev < 2 then
          verifyDirLoop image dx dy fuel (i + dy) (j + dx) 1 c1 (c2 + 1) c3
        else
          -- previously in the second black run: early return
          verifyRatio c1 c2 c3 1
      else
        -- black pixel
        if prev = 0 then
          verifyDirLoop image dx dy fuel (i + dy) (j + dx) 0 (c1 + 1) c2 c3
        else
          verifyDirLoop image dx dy fuel (i + dy) (j + dx) 2 c1 c2 (c3 + 1)
    else
      -- "Edge Check": left the image, evaluate the gathered runs
      verifyRatio c1 c2 c3 1

/-- `verifyDirection(image, loc, dx, dy)` from `qr.py` lines 145-180. -/
def verifyDirection (image : Img) (loc : Pt) (dx dy : ℤ) : Bool :=
  verifyDirLoop image dx dy (image.rows + 1) loc.1 loc.2 0 0 0 0

/-- `verifyCenter(image, loc)` from `qr.py` lines 183-188: straight up
(`dx=0, dy=-1`), straight down (`dx=0, dy=1`), diagonally down-right
(`dx=1, dy=1`), all three must pass. -/
def verifyCenter (image : Img) (loc : Pt) : Bool :=
  verifyDirection image loc 0 (-1) && verifyDirection image loc 0 1 &&
    verifyDirection image loc 1 1

/-- C3: `verifyCenter` accepts a location iff all three directional walks
(straight up, straight down, diagonally down-right) pass, and the
`verifyRatio` gate at the default threshold `1.0` accepts `c1, c2, c3` iff
`|c1 - 1.5*mean|`, `|c2 - mean|` and `|c3 - mean|` are all strictly below
the threshold, where `mean = (c1+c2+c3)/3.5`. -/
theorem verifyCenter_spec :
    (∀ (image : Img) (loc : Pt),
      verifyCenter image loc = true ↔
        (verifyDirection image loc 0 (-1) = true ∧
          verifyDirection image loc 0 1 = true ∧
          verifyDirection image loc 1 1 = true)) ∧
    (∀ c1 c2 c3 : ℕ,
      verifyRatio c1 c2 c3 1 = true ↔
        (|(c1 : ℚ) - (3 / 2) * (((c1 : ℚ) + c2 + c3) / (7 / 2))| < 1 ∧
          |(c2 : ℚ) - ((c1 : ℚ) + c2 + c3) / (7 / 2)| < 1 ∧
          |(c3 : ℚ) - ((c1 : ℚ) + c2 + c3) / (7 / 2)| < 1)) := by
  constructor
  · intro image loc
    unfold verifyCenter
    rw [Bool.and_eq_true, Bool.and_eq_true]
    tauto
  · intro c1 c2 c3
    unfold verifyRatio
    rw [decide_eq_true_iff]

/-- A location is outside the image bounds. -/
def outsideImage (image : Img) (loc : Pt) : Prop :=
  loc.1 < 0 ∨ (image.rows : ℤ) ≤ loc.1 ∨ loc.2 < 0 ∨ (image.cols : ℤ) ≤ loc.2

instance (image : Img) (loc : Pt) : Decidable (outsideImage image loc) := by
  unfold outsideImage
  infer_instance

/-- C10: `verifyRatio(0,0,0)` is `true` at the default threshold (the mean
is 0 and all three absolute differences are 0 < 1.0); consequently, for
every image and every candidate location outside the image bounds, each
directional walk terminates immediately with zero-length runs and
`verifyCenter` returns `true`. -/
theorem verifyCenter_out_of_bounds :
    verifyRatio 0 0 0 1 = true ∧
      ∀ (image : Img) (loc : Pt), outsideImage image loc →
        verifyCenter image loc = true := by
  have hratio : verifyRatio 0 0 0 1 = true := by
    unfold verifyRatio
    norm_num
  refine ⟨hratio, ?_⟩
  intro image loc hout
  have hdir : ∀ dx dy : ℤ, verifyDirection image loc dx dy = true := by
    intro dx dy
    unfold verifyDirection verifyDirLoop
    have hguard : ¬(0 ≤ loc.1 ∧ loc.1 < (image.rows : ℤ) ∧ 0 ≤ loc.2 ∧
        loc.2 < (image.cols : ℤ)) := by
      unfold outsideImage at hout
      omega
    rw [if_neg hguard]
    exact hratio
  unfold verifyCenter
  rw [hdir 0 (-1), hdir 0 1, hdir 1 1]
  rfl

/-- Witness for `verifyCenter_out_of_bounds`: the location `(-1, 0)` is
outside the 2×2 all-black image and is declared a verified center. -/
theorem verifyCenter_out_of_bounds_witness :
    verifyCenter blankImg (-1, 0) = true :=
  verifyCenter_out_of_bounds.2 blankImg (-1, 0) (by decide)

/-- The per-row scan state of `getCandidates` (`qr.py` lines 78-134):
five run-length counters, the previous pixel colour (`prev`; the row
starts with `prev = True`), and the accumulated candidate list. -/
structure ScanState where
  c1 : ℕ
  c2 : ℕ
  c3 : ℕ
  c4 : ℕ
  c5 : ℕ
  prev : Bool
  cands : List Pt

/-- One column step of the `getCandidates` row scan (`qr.py` lines
96-127), at row `i`, column `j`, with current pixel `w` (`true` = white).
White after white: `c4 += 1`.  White after black: the 5-run window just
closed, so run `checkRatio` and on success append the two candidates
`(i, j - c5 - c4 - c3//2)` and `(i, j - c5 - c4 - c3//2 + 1)`; then
`c2 = c4; c4 = 1`.  Black after white: `c1 = c3; c3 = c5; c5 = 1`.
Black after black: `c5 += 1`. -/
def scanStep (i : ℤ) (s : ScanState) (j : ℤ) (w : Bool) : ScanState :=
  if w then
    if s.prev then
      { s with c4 := s.c4 + 1, prev := true }
    else
      let cands :=
        if checkRatio s.c1 s.c2 s.c3 s.c4 s.c5 2 then
          s.cands ++ [(i, j - (s.c5 : ℤ) - (s.c4 : ℤ) - ((s.c3 / 2 : ℕ) : ℤ)),
            (i, j - (s.c5 : ℤ) - (s.c4 : ℤ) - ((s.c3 / 2 : ℕ) : ℤ) + 1)]
        else s.cands
      { c1 := s.c1, c2 := s.c4, c3 := s.c3, c4 := 1, c5 := s.c5,
        prev := true, cands := cands }
  else
    if s.prev then
      { s with c1 := s.c3, c3 := s.c5, c5 := 1, prev := false }
    else
      { s with c5 := s.c5 + 1, prev := false }

/-- The "Right edge check" after a row's column loop (`qr.py` lines
130-132): one final `checkRatio` on the trailing window, with the two
candidates at columns `(j+1) - c5 - c4 - c3//2` and that plus 1, where
`j+1 = cols` (`j` is the last loop index, `cols - 1`).  When `cols = 0`
the source's `j` is unbound, but `checkRatio(0,0,0,0,0)` is `false`
(mean `0 < 1`), so the append — the only use of `j` — is unreachable and
the embedding agrees with the source there too. -/
def rowFinish (i : ℤ) (cols : ℕ) (s : ScanState) : List Pt :=
  if checkRatio s.c1 s.c2 s.c3 s.c4 s.c5 2 then
    s.cands ++ [(i, (cols : ℤ) - (s.c5 : ℤ) - (s.c4 : ℤ) - ((s.c3 / 2 : ℕ) : ℤ)),
      (i, (cols : ℤ) - (s.c5 : ℤ) - (s.c4 : ℤ) - ((s.c3 / 2 : ℕ) : ℤ) + 1)]
  else s.cands

/-- One full row of the `getCandidates` scan at row `i`, starting from the
fresh counters and `prev = True` of `qr.py` lines 85-94 and accumulating
onto the candidate list gathered from earlier rows. -/
def scanRow (image : Img) (i : ℤ) (cands : List Pt) : List Pt :=
  rowFinish i image.cols
    ((List.range image.cols).foldl
      (fun s j => scanStep i s (j : ℤ) (image.pix i (j : ℤ)))
      ⟨0, 0, 0, 0, 0, true, cands⟩)

/-- `getCandidates(image)` from `qr.py` lines 78-134. -/
def getCandidates (image : Img) : List Pt :=
  (List.range image.rows).foldl (fun cands i => scanRow image (i : ℤ) cands) []

/-- C6: in `getCandidates`, a ratio check fires exactly on the
black-to-white transitions that close a 5-run window, emitting — when it
passes — exactly the two candidates `(i, j - c5 - c4 - c3//2)` and
`(i, j - c5 - c4 - c3//2 + 1)` and nothing otherwise; after the row ends
a final check on the trailing window emits the same two candidates offset
from column `j + 1 = cols`; and `getCandidates` is the row-by-row fold of
this scan. -/
theorem getCandidates_emission :
    (∀ (i : ℤ) (s : ScanState) (j : ℤ) (w : Bool),
      (scanStep i s j w).cands = s.cands ++
        (if w = true ∧ s.prev = false ∧ checkRatio s.c1 s.c2 s.c3 s.c4 s.c5 2 = true then
          [(i, j - (s.c5 : ℤ) - (s.c4 : ℤ) - ((s.c3 / 2 : ℕ) : ℤ)),
            (i, j - (s.c5 : ℤ) - (s.c4 : ℤ) - ((s.c3 / 2 : ℕ) : ℤ) + 1)]
        else [])) ∧
    (∀ (i : ℤ) (cols : ℕ) (s : ScanState),
      rowFinish i cols s = s.cands ++
        (if checkRatio s.c1 s.c2 s.c3 s.c4 s.c5 2 = true then
          [(i, (cols : ℤ) - (s.c5 : ℤ) - (s.c4 : ℤ) - ((s.c3 / 2 : ℕ) : ℤ)),
            (i, (cols : ℤ) - (s.c5 : ℤ) - (s.c4 : ℤ) - ((s.c3 / 2 : ℕ) : ℤ) + 1)]
        else [])) ∧
    (∀ image : Img, getCandidates image =
      (List.range image.rows).foldl (fun cands i => scanRow image (i : ℤ) cands) []) := by
  refine ⟨?_, ?_, ?_⟩
  · intro i s j w
    obtain ⟨c1, c2, c3, c4, c5, prev, cands⟩ := s
    cases w <;> cases prev <;> by_cases h : checkRatio c1 c2 c3 c4 c5 2 = true <;>
      simp [scanStep, h]
  · intro i cols s
    by_cases h : checkRatio s.c1 s.c2 s.c3 s.c4 s.c5 2 = true <;>
      simp [rowFinish, h]
  · intro image
    rfl
